import Mathlib

/-!
Shallow embedding of the tiered file-search engine of this repository
(`radar_chatbot.py`, class `RadarFileChatbot`) and of the plain
all-keywords variant (`safe_chatbot.py`), together with theorems that
settle the specification claims about them.

Modelling conventions:
  - Python strings are modelled as `List Char` while matching; the rendered
    report is a Lean `String`.
  - `str.lower()` is modelled with `Char.toLower` (ASCII case folding; the
    queries and contents of interest are ASCII).
  - The regex `\b\w+\b` (re.findall) yields the maximal runs of word
    characters, modelled by `runsBy isWordChar`; `str.split()` yields the
    maximal runs of non-whitespace characters, modelled by
    `runsBy (fun c => !c.isWhitespace)`.
  - A file is `FSFile`: `path` models `os.path.join(root, file)`, `name`
    models the bare file name (so `os.path.basename path = name`),
    `size = none` models `os.path.getsize` raising, `content = none`
    models `open`/`read` raising; both are caught by the per-file
    `try/except` of `search_files`.
  - `os.walk` is modelled as the list of directories in traversal order,
    each carrying its files in listing order.
-/

/-- Python `\w`: word characters (letters, digits, underscore). -/
def isWordChar (c : Char) : Bool := c.isAlphanum || c = '_'

/-- `startsWith needle hay`: `needle` is an initial segment of `hay`. -/
def startsWith : List Char → List Char → Bool
  | [], _ => true
  | _ :: _, [] => false
  | a :: as, b :: bs => a = b && startsWith as bs

/-- Python `needle in hay`: contiguous substring test. -/
def containsSub : List Char → List Char → Bool
  | hay, needle =>
    if startsWith needle hay then true
    else
      match hay with
      | [] => false
      | _ :: t => containsSub t needle

/-- `endsWithList s suffix`: Python `s.endswith(suffix)`. -/
def endsWithList (s suffix : List Char) : Bool :=
  startsWith suffix.reverse s.reverse

/-- Helper for `countSub`: scan `hay` left to right; while `skip > 0` we are
inside an already-counted occurrence and only consume characters. -/
def countSubAux (needle : List Char) : List Char → Nat → Nat
  | [], _ => 0
  | c :: t, skip =>
    if skip ≠ 0 then countSubAux needle t (skip - 1)
    else if startsWith needle (c :: t) then 1 + countSubAux needle t (needle.length - 1)
    else countSubAux needle t 0

/-- Python `hay.count(needle)`: number of non-overlapping occurrences,
scanning from the left (after a hit the scan resumes past the hit). -/
def countSub (hay needle : List Char) : Nat :=
  if needle = [] then hay.length + 1 else countSubAux needle hay 0

/-- Index of the first occurrence of `needle` in `hay`
(Python `hay.find(needle)`, with `none` for `-1`). -/
def findSub : List Char → List Char → Option Nat
  | [], needle => if startsWith needle [] then some 0 else none
  | c :: t, needle =>
    if startsWith needle (c :: t) then some 0
    else (findSub t needle).map (fun n => n + 1)

/-- Maximal runs of characters satisfying `p` (characters failing `p` are
separators and are dropped). -/
def runsBy (p : Char → Bool) : List Char → List (List Char)
  | [] => []
  | c :: cs =>
    if p c then
      match cs, runsBy p cs with
      | [], _ => [[c]]
      | d :: _, rest =>
        if p d then
          match rest with
          | r :: rs => (c :: r) :: rs
          | [] => [[c]]
        else [c] :: rest
    else runsBy p cs

/-- Python `s.split()`: maximal whitespace-separated chunks. -/
def splitWs (s : List Char) : List (List Char) :=
  runsBy (fun c => !c.isWhitespace) s

/-- Python `s.strip()`. -/
def pyStrip (s : List Char) : List Char :=
  ((s.dropWhile Char.isWhitespace).reverse.dropWhile Char.isWhitespace).reverse

/-- The tokenizer of `search_files` (radar variant):
`[word.lower() for word in re.findall(r'\b\w+\b', q) if len(word) > 1]`. -/
def tokenize (q : List Char) : List (List Char) :=
  ((runsBy isWordChar q).filter (fun w => 1 < w.length)).map (List.map Char.toLower)

/-- The tokenizer of `safe_chatbot.py`'s `search_files`:
identical except that it keeps only words with `len(word) > 2`. -/
def tokenizeSafe (q : List Char) : List (List Char) :=
  ((runsBy isWordChar q).filter (fun w => 2 < w.length)).map (List.map Char.toLower)

/-- `re.sub(r'[^\w]', '', word.lower())` in `check_phrase_proximity`. -/
def cleanWord (w : List Char) : List Char :=
  (w.map Char.toLower).filter isWordChar

/-- Word-index positions at which keyword `kw` occurs in the whitespace-split
word list (the entries of the `word_positions` dict of
`check_phrase_proximity`). -/
def wordPositionsOf (words : List (List Char)) (kw : List Char) : List Nat :=
  words.enum.filterMap (fun p => if cleanWord p.2 = kw then some p.1 else none)

/-- `abs(pos2 - pos1)` on `Nat` word indices. -/
def natDist (a b : Nat) : Nat := if a ≤ b then b - a else a - b

/-- `RadarFileChatbot.check_phrase_proximity` (radar variant, lines 481-518):
requires at least two keywords, requires the number of distinct keywords
found among the cleaned whitespace-words to equal `len(keywords)`, then
looks for one position of the first keyword that has every other keyword
within 50 words. -/
def checkPhraseProximity (content : List Char) (keywords : List (List Char)) : Bool :=
  if keywords.length < 2 then false
  else
    let words := splitWs content
    let foundCount :=
      (keywords.dedup.filter (fun kw => !(wordPositionsOf words kw).isEmpty)).length
    if foundCount ≠ keywords.length then false
    else
      match keywords with
      | [] => false
      | k0 :: rest =>
        (wordPositionsOf words k0).any (fun pos1 =>
          rest.all (fun kw =>
            (wordPositionsOf words kw).any (fun pos2 =>
              decide (natDist pos2 pos1 ≤ 50))))

/-- The three match tiers of `search_files` (the source stores the strings
`'EXACT MATCH'` / `'PHRASE MATCH'` / `'KEYWORD MATCH'`). -/
inductive MatchTier where
  | exact
  | phrase
  | keywords
deriving DecidableEq

/-- The tier classification of one file's lowered content, exactly the
`if query_lower in content_lower / elif len(keywords) > 1 and
check_phrase_proximity / elif all(...)` chain of `search_files`
(lines 399-444), with the scores computed where the source computes them. -/
def classify (contentLower queryLower : List Char) (kws : List (List Char)) :
    Option (MatchTier × Nat) :=
  if containsSub contentLower queryLower then
    some (.exact, 1000 + countSub contentLower queryLower * 100)
  else if decide (1 < kws.length) && checkPhraseProximity contentLower kws then
    some (.phrase, 500 + (kws.map (fun kw => countSub contentLower kw)).sum * 10)
  else if kws.all (fun kw => containsSub contentLower kw) then
    some (.keywords, (kws.map (fun kw => countSub contentLower kw)).sum * 5)
  else none

/-- The configuration constants of `setup_variables` (lines 62-73) together
with the selected `file_extensions`. -/
structure SearchConfig where
  fileExtensions : List (List Char)
  maxFileSize : Nat
  maxSnippetLength : Nat
  maxResultsDisplay : Nat
  maxTotalResponseLength : Nat
  maxFilesToSearch : Nat
deriving DecidableEq

/-- The values assigned in `setup_variables`. -/
def defaultConfig : SearchConfig where
  fileExtensions := [".txt".data, ".log".data, ".dat".data, ".csv".data]
  maxFileSize := 10 * 1024 * 1024
  maxSnippetLength := 200
  maxResultsDisplay := 8
  maxTotalResponseLength := 50000
  maxFilesToSearch := 10000

/-- One filesystem file as seen by the scan loop. `size = none` models
`os.path.getsize` raising; `content = none` models `open`/`read` raising. -/
structure FSFile where
  path : List Char
  name : List Char
  size : Option Nat
  content : Option (List Char)
deriving DecidableEq

/-- `RadarFileChatbot.get_snippet_for_phrase` (lines 520-544).
`max(0, pos - 50)` is Nat subtraction `pos - 50`. -/
def getSnippetForPhrase (cfg : SearchConfig) (content phrase : List Char) : List Char :=
  let phraseLower := phrase.map Char.toLower
  let contentLower := content.map Char.toLower
  match findSub contentLower phraseLower with
  | none => content.take cfg.maxSnippetLength ++ "...".data
  | some pos =>
    let start := pos - 50
    let stop := min content.length (pos + phrase.length + 50)
    let snippet := (content.drop start).take (stop - start)
    let snippet := List.intercalate [' '] (splitWs snippet)
    let snippet := if 0 < start then "...".data ++ snippet else snippet
    let snippet := if stop < content.length then snippet ++ "...".data else snippet
    snippet.take cfg.maxSnippetLength

/-- Sentence boundaries of `get_snippet_for_keywords`: `re.split(r'[.!?\n]+', content)`
(the empty pieces that `re.split` can yield are skipped by the source's
`if not sentence: continue`, so keeping only the maximal delimiter-free runs
is equivalent). -/
def isSentenceDelim (c : Char) : Bool := c = '.' || c = '!' || c = '?' || c = '\n'

/-- The final fallback loop of `get_snippet_for_keywords` (lines 570-586). -/
def fallbackKeywordWindow (cfg : SearchConfig) (content : List Char) :
    List (List Char) → List Char
  | [] => content.take cfg.maxSnippetLength ++ "...".data
  | kw :: rest =>
    match findSub (content.map Char.toLower) kw with
    | none => fallbackKeywordWindow cfg content rest
    | some pos =>
      let start := pos - 50
      let stop := min content.length (pos + kw.length + 50)
      let ctx := (content.drop start).take (stop - start)
      let ctx := List.intercalate [' '] (splitWs ctx)
      let ctx := if 0 < start then "...".data ++ ctx else ctx
      let ctx := if stop < content.length then ctx ++ "...".data else ctx
      ctx.take cfg.maxSnippetLength

/-- `RadarFileChatbot.get_snippet_for_keywords` (lines 546-586): pick the
sentence containing the most keywords (strictly better score wins, so the
first best sentence is kept), else fall back to a keyword window. -/
def getSnippetForKeywords (cfg : SearchConfig) (content : List Char)
    (kws : List (List Char)) : List Char :=
  let sentences := runsBy (fun c => !isSentenceDelim c) content
  let best := sentences.foldl (fun acc sentence =>
    let s := pyStrip sentence
    if s = [] then acc
    else
      let score := (kws.filter (fun kw => containsSub (s.map Char.toLower) kw)).length
      if acc.2 < score then (s, score) else acc) ([], 0)
  if best.1 ≠ [] then
    if cfg.maxSnippetLength < best.1.length then
      best.1.take (cfg.maxSnippetLength - 3) ++ "...".data
    else best.1
  else fallbackKeywordWindow cfg content kws

/-- One search result, the dict appended to `exact_matches` /
`phrase_matches` / `keyword_matches` in `search_files`. -/
structure MatchRecord where
  path : List Char
  filename : List Char
  snippet : List Char
  size : Nat
  relevance : Nat
  matchType : MatchTier
deriving DecidableEq

/-- The mutable locals of `search_files` during the scan. -/
structure ScanState where
  exactMatches : List MatchRecord
  phraseMatches : List MatchRecord
  keywordMatches : List MatchRecord
  filesSearched : Nat
  filesSkipped : Nat
  filesError : Nat
deriving DecidableEq

def initState : ScanState := ⟨[], [], [], 0, 0, 0⟩

/-- Total number of match records collected so far. -/
def recordCount (s : ScanState) : Nat :=
  s.exactMatches.length + s.phraseMatches.length + s.keywordMatches.length

/-- The derived query data of `search_files`: `original_query = query.strip()`,
`query_lower = original_query.lower()`, `keywords` from the tokenizer. -/
structure SearchQuery where
  originalQuery : List Char
  queryLower : List Char
  keywords : List (List Char)

/-- `file.lower().endswith(ext.lower())` over the selected extensions. -/
def extOk (cfg : SearchConfig) (f : FSFile) : Bool :=
  cfg.fileExtensions.any (fun ext =>
    endsWithList (f.name.map Char.toLower) (ext.map Char.toLower))

/-- The per-file body of `search_files`' scan loop (lines 372-448): extension
filter, size checks, read, tier classification, record creation; the
`try/except` turns a failed `getsize` or `read` into `files_error += 1`. -/
def processFile (cfg : SearchConfig) (q : SearchQuery) (f : FSFile) (s : ScanState) :
    ScanState :=
  if !extOk cfg f then s
  else
    match f.size with
    | none => { s with filesError := s.filesError + 1 }
    | some fileSize =>
      if cfg.maxFileSize < fileSize then { s with filesSkipped := s.filesSkipped + 1 }
      else if fileSize = 0 then s
      else
        let s1 := { s with filesSearched := s.filesSearched + 1 }
        match f.content with
        | none => { s1 with filesError := s1.filesError + 1 }
        | some raw =>
          let content := raw.take cfg.maxFileSize
          let contentLower := content.map Char.toLower
          match classify contentLower q.queryLower q.keywords with
          | some (.exact, score) =>
            { s1 with exactMatches := s1.exactMatches ++
                [⟨f.path, f.name, getSnippetForPhrase cfg content q.originalQuery,
                  fileSize, score, .exact⟩] }
          | some (.phrase, score) =>
            { s1 with phraseMatches := s1.phraseMatches ++
                [⟨f.path, f.name, getSnippetForKeywords cfg content q.keywords,
                  fileSize, score, .phrase⟩] }
          | some (.keywords, score) =>
            { s1 with keywordMatches := s1.keywordMatches ++
                [⟨f.path, f.name, getSnippetForKeywords cfg content q.keywords,
                  fileSize, score, .keywords⟩] }
          | none => s1

/-- The inner `for file in files` loop: before each file the source checks
`if files_searched >= self.MAX_FILES_TO_SEARCH: break`. -/
def scanDirFiles (cfg : SearchConfig) (q : SearchQuery) :
    List FSFile → ScanState → ScanState
  | [], s => s
  | f :: rest, s =>
    if cfg.maxFilesToSearch ≤ s.filesSearched then s
    else scanDirFiles cfg q rest (processFile cfg q f s)

/-- The outer `for root, dirs, files in os.walk` loop: after each directory
the source checks the cap again and breaks. -/
def scanDirs (cfg : SearchConfig) (q : SearchQuery) :
    List (List FSFile) → ScanState → ScanState
  | [], s => s
  | d :: rest, s =>
    let s1 := scanDirFiles cfg q d s
    if cfg.maxFilesToSearch ≤ s1.filesSearched then s1
    else scanDirs cfg q rest s1

/-- Stable insertion used by `sortRel`: `x` goes in front of the first element
whose relevance is ≤ its own, so earlier-discovered records keep priority
on ties. -/
def insertRel (x : MatchRecord) : List MatchRecord → List MatchRecord
  | [] => [x]
  | y :: ys => if y.relevance ≤ x.relevance then x :: y :: ys else y :: insertRel x ys

/-- `bucket.sort(key=lambda x: x['relevance'], reverse=True)`: a stable sort
in descending relevance order (stable key-based sorting is extensionally
unique, so insertion sort realizes the same function as the source's sort). -/
def sortRel : List MatchRecord → List MatchRecord
  | [] => []
  | x :: xs => insertRel x (sortRel xs)

/-- One decimal digit of `num / den`, modelling the `f"{..:.1f}"` formatting
of `format_prioritized_results` (the source rounds a binary double; the
rounding mode is display-only and no claim depends on the digit, all
concrete instances in this file use sizes below 1024 where no division
happens). -/
def oneDecimal (num den : Nat) : String :=
  let t := (num * 10 + den / 2) / den
  toString (t / 10) ++ "." ++ toString (t % 10)

/-- The `size_str` computation of `format_prioritized_results` (617-622). -/
def sizeStr (size : Nat) : String :=
  if size < 1024 then toString size ++ " B"
  else if size < 1024 * 1024 then oneDecimal size 1024 ++ " KB"
  else oneDecimal size (1024 * 1024) ++ " MB"

/-- `match_indicator` of `format_prioritized_results` (line 625). -/
def matchIndicator : MatchTier → String
  | .exact => "[EXACT]"
  | .phrase => "[PHRASE]"
  | .keywords => "[KEYWORD]"

/-- The `match_type` strings stored in the source's record dicts. -/
def matchTypeStr : MatchTier → String
  | .exact => "EXACT MATCH"
  | .phrase => "PHRASE MATCH"
  | .keywords => "KEYWORD MATCH"

/-- `result_text` for one entry of `format_prioritized_results` (628-632). -/
def renderEntry (i : Nat) (r : MatchRecord) : String :=
  "[" ++ toString i ++ "] " ++ matchIndicator r.matchType ++ " "
    ++ matchTypeStr r.matchType ++ " - " ++ String.mk r.filename ++ "\n"
    ++ "    Path: " ++ String.mk r.path ++ "\n"
    ++ "    Size: " ++ sizeStr r.size ++ "\n"
    ++ "    Content: " ++ String.mk r.snippet ++ "\n"
    ++ String.mk (List.replicate 60 '-') ++ "\n\n"

/-- The truncation marker of `format_prioritized_results` (line 636). -/
def truncMsg : String := "More results available but truncated to save space...\n"

/-- Result of the entry-rendering loop: the committed entries, whether the
truncation marker was emitted, the source's `current_length` accumulator
(header plus committed entries only — the marker is not counted by the
source either), and `displayed_count`. -/
structure RenderAcc where
  entries : List String
  truncated : Bool
  curLen : Nat
  displayed : Nat
deriving DecidableEq

/-- The `for i, result in enumerate(results, 1)` loop of
`format_prioritized_results` (lines 610-641): stop at
`maxResultsDisplay` entries; before committing an entry check
`current_length + len(result_text) > maxTotalResponseLength` and on
overflow emit the truncation marker and stop. -/
def renderLoop (cfg : SearchConfig) :
    List MatchRecord → Nat → Nat → Nat → RenderAcc
  | [], _, len, d => ⟨[], false, len, d⟩
  | r :: rest, i, len, d =>
    if cfg.maxResultsDisplay ≤ d then ⟨[], false, len, d⟩
    else
      let entry := renderEntry i r
      if cfg.maxTotalResponseLength < len + entry.length then ⟨[], true, len, d⟩
      else
        let acc := renderLoop cfg rest (i + 1) (len + entry.length) (d + 1)
        ⟨entry :: acc.entries, acc.truncated, acc.curLen, acc.displayed⟩

/-- The header block of `format_prioritized_results` (lines 594-604). -/
def formatHeader (filesSearched filesSkipped : Nat) (query : List Char)
    (results exacts phrases kwds : List MatchRecord) : String :=
  "SEARCH RESULTS\n" ++ "Query: '" ++ String.mk query ++ "'\n"
    ++ "Files searched: " ++ toString filesSearched
    ++ (if 0 < filesSkipped then
          " (skipped " ++ toString filesSkipped ++ " large files)" else "")
    ++ "\n\n MATCH SUMMARY:\n"
    ++ "  Exact matches: " ++ toString exacts.length ++ "\n"
    ++ "  Phrase matches: " ++ toString phrases.length ++ "\n"
    ++ "  Keyword matches: " ++ toString kwds.length ++ "\n"
    ++ "  Total matches: " ++ toString results.length ++ "\n"
    ++ String.mk (List.replicate 60 '=') ++ "\n\n"

/-- The zero-match suggestions block (lines 652-658). -/
def noResultsBlock : String :=
  "No files found matching your search.\n\nSuggestions:\n"
    ++ "  • Try different or fewer keywords\n"
    ++ "  • Check if file types are selected\n"
    ++ "  • Verify the directory path is correct\n"
    ++ "  • Check spelling of search terms\n"

/-- The trailing "additional matches" note (lines 644-649), empty when all
results were displayed. -/
def remainingSummary (total displayed : Nat) (exacts : List MatchRecord) : String :=
  if displayed < total then
    "\n" ++ toString (total - displayed) ++ " additional matches not shown.\n"
      ++ (if 0 < exacts.length then
            "Exact matches are shown first for best relevance.\n" else "")
  else ""

/-- `RadarFileChatbot.format_prioritized_results` (lines 588-660). -/
def formatPrioritizedResults (cfg : SearchConfig) (results : List MatchRecord)
    (filesSearched filesSkipped : Nat) (query : List Char)
    (exacts phrases kwds : List MatchRecord) : String :=
  let header := formatHeader filesSearched filesSkipped query results exacts phrases kwds
  if results.isEmpty then header ++ noResultsBlock
  else
    let acc := renderLoop cfg results 1 header.length 0
    header ++ String.join acc.entries
      ++ (if acc.truncated then truncMsg else "")
      ++ remainingSummary results.length acc.displayed exacts

/-- The debug footer appended by `search_files` when `files_error > 0`
(lines 470-472). -/
def errorFooter (n : Nat) : String :=
  "\n" ++ toString n ++ " files couldn't be read (permissions/encoding issues)"

/-- The message of the empty-query early return (line 353). -/
def emptyQueryMsg : String := "Please provide meaningful search terms (2+ characters)"

/-- Outcome of one `search_files` call. Besides the response string handed to
`search_complete`, the report carries the final scan state and the combined
result list so the specification can talk about them. -/
inductive SearchOutcome where
  | emptyQuery (message : String)
  | report (response : String) (finalState : ScanState) (allResults : List MatchRecord)
deriving DecidableEq

/-- `RadarFileChatbot.search_files` (lines 342-479): tokenize, early-return on
an empty token list, scan the tree, sort each bucket, concatenate in tier
order, render, append the unreadable-files footer. -/
def searchFiles (cfg : SearchConfig) (dirs : List (List FSFile)) (query : List Char) :
    SearchOutcome :=
  let originalQuery := pyStrip query
  let queryLower := originalQuery.map Char.toLower
  let keywords := tokenize originalQuery
  if keywords.isEmpty then .emptyQuery emptyQueryMsg
  else
    let q : SearchQuery := ⟨originalQuery, queryLower, keywords⟩
    let st := scanDirs cfg q dirs initState
    let exacts := sortRel st.exactMatches
    let phrases := sortRel st.phraseMatches
    let kwds := sortRel st.keywordMatches
    let allResults := exacts ++ phrases ++ kwds
    let resp := formatPrioritizedResults cfg allResults st.filesSearched st.filesSkipped
      originalQuery exacts phrases kwds
    let resp := if 0 < st.filesError then resp ++ errorFooter st.filesError else resp
    .report resp st allResults

/-- The per-file match test of `safe_chatbot.py`'s `search_files` (line 353):
`all(keyword in content for keyword in keywords)` on the lowered full
content, with that variant's own tokenizer. -/
def safeMatches (content query : List Char) : Bool :=
  (tokenizeSafe query).all (fun kw => containsSub (content.map Char.toLower) kw)

/-- The AllKeywords containment criterion of the tiered variant (line 432),
applied to the tiered variant's tokens of the same raw query. -/
def allKeywordsCriterion (content query : List Char) : Bool :=
  (tokenize (pyStrip query)).all (fun kw => containsSub (content.map Char.toLower) kw)

/-- Projections of a `SearchOutcome`, used to state concrete instances. -/
def outcomeParts : SearchOutcome → String × ScanState × List MatchRecord
  | .emptyQuery m => (m, initState, [])
  | .report r st res => (r, st, res)

/-- The specification's statement of the ProximityPhrase condition, written
from the spec's words (every token occurs at some whitespace-word
position, and some occurrence of the first token has every other token
within 50 word positions). -/
def proximitySpec (content : List Char) (kws : List (List Char)) : Prop :=
  (∀ kw ∈ kws, wordPositionsOf (splitWs content) kw ≠ []) ∧
  ∃ p1 ∈ wordPositionsOf (splitWs content) (kws.headD []),
    ∀ kw ∈ kws.tail, ∃ p2 ∈ wordPositionsOf (splitWs content) kw,
      natDist p2 p1 ≤ 50

instance (content : List Char) (kws : List (List Char)) :
    Decidable (proximitySpec content kws) := by
  unfold proximitySpec
  exact inferInstance

/-- A readable, non-empty, small file for the concrete instances. -/
def mkFile (p n c : String) : FSFile :=
  ⟨p.data, n.data, some c.data.length, some c.data⟩

/-- Configuration with the file cap of the spec's scenario:
`maxFilesScanned = 2`. -/
def exCfg : SearchConfig := { defaultConfig with maxFilesToSearch := 2 }

/-- The derived query data for the query "radar". -/
def exQ : SearchQuery := ⟨"radar".data, "radar".data, ["radar".data]⟩

/-- First two eligible files of the scenario directory. -/
def exFilesTwo : List FSFile :=
  [mkFile "d/a.txt" "a.txt" "radar one", mkFile "d/b.txt" "b.txt" "no match here"]

/-- Five eligible files, the spec scenario's directory. -/
def exFilesFive : List FSFile :=
  exFilesTwo ++ [mkFile "d/c.txt" "c.txt" "radar two",
    mkFile "d/d.txt" "d.txt" "radar three", mkFile "d/e.txt" "e.txt" "radar four"]

/-- A file whose read raises (content unavailable). -/
def exBadFile : FSFile := ⟨"d/x.txt".data, "x.txt".data, some 5, none⟩

/-- A directory with one matching file and one unreadable file. -/
def exBadDirs : List (List FSFile) :=
  [[mkFile "d/a.txt" "a.txt" "radar one", exBadFile]]

/-! ### Helper lemmas -/

theorem strLen_mk (l : List Char) : (String.mk l).length = l.length := rfl

theorem strLen_foldl_append (l : List String) :
    ∀ s : String, (l.foldl (fun r t => r ++ t) s).length
      = s.length + (l.map String.length).sum := by
  induction l with
  | nil => intro s; simp
  | cons a l ih =>
    intro s
    simp only [List.foldl_cons, ih, String.length_append, List.map_cons, List.sum_cons]
    omega

theorem strLen_join (l : List String) :
    (String.join l).length = (l.map String.length).sum := by
  simpa using strLen_foldl_append l ""

theorem processFile_searched_le (cfg : SearchConfig) (q : SearchQuery) (f : FSFile)
    (s : ScanState) :
    (processFile cfg q f s).filesSearched ≤ s.filesSearched + 1 := by
  unfold processFile
  repeat' split
  all_goals try simp
  all_goals (repeat' split) <;> simp

theorem processFile_recordCount_le (cfg : SearchConfig) (q : SearchQuery) (f : FSFile)
    (s : ScanState) :
    recordCount (processFile cfg q f s) ≤ recordCount s + 1 := by
  unfold processFile
  repeat' split
  all_goals try simp [recordCount]
  all_goals (repeat' split) <;> simp [recordCount] <;> omega

theorem scanDirFiles_halt (cfg : SearchConfig) (q : SearchQuery) (files : List FSFile)
    (s : ScanState) (h : cfg.maxFilesToSearch ≤ s.filesSearched) :
    scanDirFiles cfg q files s = s := by
  cases files with
  | nil => rfl
  | cons f rest => unfold scanDirFiles; rw [if_pos h]

theorem scanDirFiles_cons_of_lt (cfg : SearchConfig) (q : SearchQuery) (f : FSFile)
    (rest : List FSFile) (s : ScanState)
    (h : ¬ cfg.maxFilesToSearch ≤ s.filesSearched) :
    scanDirFiles cfg q (f :: rest) s = scanDirFiles cfg q rest (processFile cfg q f s) := by
  simp only [scanDirFiles]; rw [if_neg h]

theorem scanDirFiles_searched_le (cfg : SearchConfig) (q : SearchQuery) :
    ∀ (files : List FSFile) (s : ScanState),
    s.filesSearched ≤ cfg.maxFilesToSearch →
    (scanDirFiles cfg q files s).filesSearched ≤ cfg.maxFilesToSearch := by
  intro files
  induction files with
  | nil => intro s h; exact h
  | cons f rest ih =>
    intro s h
    unfold scanDirFiles
    split
    next => exact h
    next hlt =>
      apply ih
      have hp := processFile_searched_le cfg q f s
      omega

theorem scanDirFiles_append (cfg : SearchConfig) (q : SearchQuery) :
    ∀ (l1 l2 : List FSFile) (s : ScanState),
    scanDirFiles cfg q (l1 ++ l2) s = scanDirFiles cfg q l2 (scanDirFiles cfg q l1 s) := by
  intro l1
  induction l1 with
  | nil => intro l2 s; rfl
  | cons f rest ih =>
    intro l2 s
    by_cases h : cfg.maxFilesToSearch ≤ s.filesSearched
    · rw [scanDirFiles_halt cfg q (f :: rest ++ l2) s h,
        scanDirFiles_halt cfg q (f :: rest) s h,
        scanDirFiles_halt cfg q l2 s h]
    · rw [List.cons_append, scanDirFiles_cons_of_lt cfg q f (rest ++ l2) s h,
        scanDirFiles_cons_of_lt cfg q f rest s h, ih]

theorem scanDirs_halt (cfg : SearchConfig) (q : SearchQuery) (dirs : List (List FSFile))
    (s : ScanState) (h : cfg.maxFilesToSearch ≤ s.filesSearched) :
    scanDirs cfg q dirs s = s := by
  cases dirs with
  | nil => rfl
  | cons d rest =>
    simp only [scanDirs]
    rw [scanDirFiles_halt cfg q d s h, if_pos h]

theorem scanDirs_searched_le (cfg : SearchConfig) (q : SearchQuery) :
    ∀ (dirs : List (List FSFile)) (s : ScanState),
    s.filesSearched ≤ cfg.maxFilesToSearch →
    (scanDirs cfg q dirs s).filesSearched ≤ cfg.maxFilesToSearch := by
  intro dirs
  induction dirs with
  | nil => intro s h; exact h
  | cons d rest ih =>
    intro s h
    simp only [scanDirs]
    have h1 := scanDirFiles_searched_le cfg q d s h
    split
    next => exact h1
    next => exact ih _ h1

theorem mem_insertRel (b x : MatchRecord) (l : List MatchRecord) :
    b ∈ insertRel x l ↔ b = x ∨ b ∈ l := by
  induction l with
  | nil => simp [insertRel]
  | cons y ys ih =>
    unfold insertRel
    split
    · simp [or_comm, or_assoc, or_left_comm]
    · simp [ih]
      tauto

theorem insertRel_pairwise (x : MatchRecord) (l : List MatchRecord)
    (h : l.Pairwise (fun a b => b.relevance ≤ a.relevance)) :
    (insertRel x l).Pairwise (fun a b => b.relevance ≤ a.relevance) := by
  induction l with
  | nil => simp [insertRel]
  | cons y ys ih =>
    rw [List.pairwise_cons] at h
    obtain ⟨hy, hys⟩ := h
    unfold insertRel
    split
    next hyx =>
      refine List.Pairwise.cons ?_ (List.Pairwise.cons hy hys)
      intro b hb
      rcases List.mem_cons.mp hb with hb | hb
      · exact hb ▸ hyx
      · exact Nat.le_trans (hy b hb) hyx
    next hyx =>
      refine List.Pairwise.cons ?_ (ih hys)
      intro b hb
      rcases (mem_insertRel b x ys).mp hb with hb | hb
      · exact hb ▸ Nat.le_of_lt (Nat.lt_of_not_le hyx)
      · exact hy b hb

theorem insertRel_perm (x : MatchRecord) (l : List MatchRecord) :
    (insertRel x l).Perm (x :: l) := by
  induction l with
  | nil => simp [insertRel]
  | cons y ys ih =>
    unfold insertRel
    split
    · exact List.Perm.refl _
    · exact List.Perm.trans (List.Perm.cons y ih) (List.Perm.swap x y ys)

theorem filter_insertRel (x : MatchRecord) (l : List MatchRecord) (v : Nat) :
    (insertRel x l).filter (fun r => r.relevance == v)
      = if x.relevance = v
        then x :: l.filter (fun r => r.relevance == v)
        else l.filter (fun r => r.relevance == v) := by
  induction l with
  | nil =>
    simp only [insertRel, List.filter_cons, List.filter_nil]
    split
    next h => rw [if_pos (by simpa using h)]
    next h => rw [if_neg (by simpa using h)]
  | cons y ys ih =>
    unfold insertRel
    split
    next hyx =>
      by_cases hx : x.relevance = v
      · rw [if_pos hx]
        simp [List.filter_cons, hx]
      · rw [if_neg hx]
        simp [List.filter_cons, hx]
    next hyx =>
      have hxy : x.relevance < y.relevance := Nat.lt_of_not_le hyx
      simp only [List.filter_cons, ih]
      by_cases hx : x.relevance = v
      · have hy : ¬ (y.relevance == v) = true := by
          simp only [beq_iff_eq]
          omega
        simp [hx, hy]
      · by_cases hy : (y.relevance == v) = true
        · simp [hx, hy]
        · simp [hx, hy]

theorem sortRel_pairwise (l : List MatchRecord) :
    (sortRel l).Pairwise (fun a b => b.relevance ≤ a.relevance) := by
  induction l with
  | nil => simp [sortRel]
  | cons x xs ih => exact insertRel_pairwise x (sortRel xs) ih

theorem sortRel_filter (l : List MatchRecord) (v : Nat) :
    (sortRel l).filter (fun r => r.relevance == v)
      = l.filter (fun r => r.relevance == v) := by
  induction l with
  | nil => rfl
  | cons x xs ih =>
    simp only [sortRel, filter_insertRel, ih, List.filter_cons]
    split
    next h => rw [if_pos (by simpa using h)]
    next h => rw [if_neg (by simpa using h)]

theorem sortRel_perm (l : List MatchRecord) : (sortRel l).Perm l := by
  induction l with
  | nil => exact List.Perm.refl _
  | cons x xs ih => exact List.Perm.trans (insertRel_perm x (sortRel xs)) (List.Perm.cons x ih)

theorem checkPhraseProximity_iff (content : List Char) (kws : List (List Char))
    (hnd : kws.Nodup) (hlen : 2 ≤ kws.length) :
    checkPhraseProximity content kws = true ↔ proximitySpec content kws := by
  cases kws with
  | nil => simp at hlen
  | cons k0 krest =>
    cases krest with
    | nil => simp at hlen
    | cons k1 krest2 =>
      unfold checkPhraseProximity
      rw [if_neg (by simp)]
      rw [List.Nodup.dedup hnd]
      by_cases hall : ∀ kw ∈ k0 :: k1 :: krest2,
          wordPositionsOf (splitWs content) kw ≠ []
      · have hfc : ((k0 :: k1 :: krest2).filter
            (fun kw => !(wordPositionsOf (splitWs content) kw).isEmpty)).length
            = (k0 :: k1 :: krest2).length := by
          rw [List.filter_length_eq_length]
          intro a ha
          simpa using hall a ha
        rw [if_neg (by omega)]
        unfold proximitySpec
        simp only [List.any_eq_true, List.all_eq_true, decide_eq_true_eq,
          List.headD_cons, List.tail_cons]
        constructor
        · rintro ⟨p1, hp1, hrest⟩
          exact ⟨hall, p1, hp1, hrest⟩
        · rintro ⟨_, p1, hp1, hrest⟩
          exact ⟨p1, hp1, hrest⟩
      · have hfc : ((k0 :: k1 :: krest2).filter
            (fun kw => !(wordPositionsOf (splitWs content) kw).isEmpty)).length
            ≠ (k0 :: k1 :: krest2).length := by
          intro heq
          apply hall
          intro a ha
          have := (List.filter_length_eq_length.mp heq) a ha
          simpa using this
        rw [if_pos hfc]
        unfold proximitySpec
        simp only [Bool.false_eq_true, false_iff]
        intro hspec
        exact hall hspec.1

theorem startsWith_length_le : ∀ (needle hay : List Char),
    startsWith needle hay = true → needle.length ≤ hay.length := by
  intro needle
  induction needle with
  | nil => intro hay _; simp
  | cons a as ih =>
    intro hay h
    cases hay with
    | nil => simp [startsWith] at h
    | cons b bs =>
      simp only [startsWith, Bool.and_eq_true] at h
      have := ih bs h.2
      simp only [List.length_cons]
      omega

theorem countSubAux_drop (needle : List Char) :
    ∀ (s : Nat) (t : List Char),
      countSubAux needle t s = countSubAux needle (t.drop s) 0 := by
  intro s
  induction s with
  | zero => intro t; rw [List.drop_zero]
  | succ s ih =>
    intro t
    cases t with
    | nil => simp [countSubAux]
    | cons c t' =>
      simp only [countSubAux, Nat.succ_ne_zero, ne_eq, not_false_eq_true, if_true,
        Nat.add_sub_cancel, List.drop_succ_cons]
      exact ih t'

theorem countSubAux_nonoverlap (needle : List Char) (hne : needle ≠ []) :
    ∀ (n : Nat) (hay : List Char), hay.length ≤ n →
      countSubAux needle hay 0 * needle.length ≤ hay.length := by
  intro n
  induction n with
  | zero =>
    intro hay h
    rw [List.length_eq_zero.mp (Nat.le_zero.mp h)]
    simp [countSubAux]
  | succ n ih =>
    intro hay hlen
    cases hay with
    | nil => simp [countSubAux]
    | cons c t =>
      have hl1 : 1 ≤ needle.length := List.length_pos.mpr hne
      simp only [countSubAux, ne_eq, not_true_eq_false, if_false, reduceIte]
      split
      next hs =>
        have hlen2 : needle.length ≤ t.length + 1 := by
          simpa using startsWith_length_le needle (c :: t) hs
        rw [countSubAux_drop]
        have hdrop : (t.drop (needle.length - 1)).length
            = t.length - (needle.length - 1) := List.length_drop _ _
        have hrec := ih (t.drop (needle.length - 1))
          (by rw [hdrop]; simp only [List.length_cons] at hlen; omega)
        rw [hdrop] at hrec
        simp only [List.length_cons, Nat.add_mul, Nat.one_mul]
        omega
      next hs =>
        have hrec := ih t (by simp only [List.length_cons] at hlen; omega)
        simp only [List.length_cons]
        omega

theorem countSub_nonoverlap (hay needle : List Char) (h : needle ≠ []) :
    countSub hay needle * needle.length ≤ hay.length := by
  unfold countSub
  rw [if_neg h]
  exact countSubAux_nonoverlap needle h hay.length hay (Nat.le_refl _)

theorem renderLoop_curLen (cfg : SearchConfig) :
    ∀ (results : List MatchRecord) (i len d : Nat),
      (renderLoop cfg results i len d).curLen ≤ max len cfg.maxTotalResponseLength ∧
      (renderLoop cfg results i len d).curLen
        = len + ((renderLoop cfg results i len d).entries.map String.length).sum := by
  intro results
  induction results with
  | nil =>
    intro i len d
    exact ⟨Nat.le_max_left _ _, by simp [renderLoop]⟩
  | cons r rest ih =>
    intro i len d
    simp only [renderLoop]
    split
    next => exact ⟨Nat.le_max_left _ _, by simp⟩
    next h1 =>
      split
      next h2 => exact ⟨Nat.le_max_left _ _, by simp⟩
      next h2 =>
        obtain ⟨ha, hb⟩ := ih (i + 1) (len + (renderEntry i r).length) (d + 1)
        have hle : len + (renderEntry i r).length ≤ cfg.maxTotalResponseLength :=
          Nat.not_lt.mp h2
        refine ⟨?_, ?_⟩
        · have hmax : max (len + (renderEntry i r).length) cfg.maxTotalResponseLength
              = cfg.maxTotalResponseLength := Nat.max_eq_right hle
          rw [hmax] at ha
          exact Nat.le_trans ha (Nat.le_max_right _ _)
        · simp only [List.map_cons, List.sum_cons]
          omega

theorem query_length_le_header (filesSearched filesSkipped : Nat) (query : List Char)
    (results exacts phrases kwds : List MatchRecord) :
    query.length
      ≤ (formatHeader filesSearched filesSkipped query results exacts phrases kwds).length := by
  unfold formatHeader
  simp only [String.length_append, strLen_mk]
  omega

theorem query_length_le_format (cfg : SearchConfig) (results : List MatchRecord)
    (filesSearched filesSkipped : Nat) (query : List Char)
    (exacts phrases kwds : List MatchRecord) :
    query.length ≤ (formatPrioritizedResults cfg results filesSearched filesSkipped
      query exacts phrases kwds).length := by
  have hq := query_length_le_header filesSearched filesSkipped query results
    exacts phrases kwds
  simp only [formatPrioritizedResults]
  split
  · rw [String.length_append]
    omega
  · simp only [String.length_append]
    omega

theorem formatPrioritizedResults_length_le (cfg : SearchConfig)
    (results : List MatchRecord) (filesSearched filesSkipped : Nat)
    (query : List Char) (exacts phrases kwds : List MatchRecord) :
    (formatPrioritizedResults cfg results filesSearched filesSkipped query
        exacts phrases kwds).length
      ≤ max (formatHeader filesSearched filesSkipped query results
            exacts phrases kwds).length cfg.maxTotalResponseLength
        + truncMsg.length + noResultsBlock.length
        + (remainingSummary results.length
            (renderLoop cfg results 1 (formatHeader filesSearched filesSkipped query
              results exacts phrases kwds).length 0).displayed exacts).length := by
  have hmax := Nat.le_max_left
    (formatHeader filesSearched filesSkipped query results exacts phrases kwds).length
    cfg.maxTotalResponseLength
  simp only [formatPrioritizedResults]
  split
  next hres =>
    rw [String.length_append]
    omega
  next hres =>
    obtain ⟨ha, hb⟩ := renderLoop_curLen cfg results 1
      (formatHeader filesSearched filesSkipped query results exacts phrases kwds).length 0
    have hj := strLen_join (renderLoop cfg results 1
      (formatHeader filesSearched filesSkipped query results exacts phrases kwds).length
      0).entries
    have htr : (if (renderLoop cfg results 1 (formatHeader filesSearched filesSkipped
        query results exacts phrases kwds).length 0).truncated
          then truncMsg else "").length ≤ truncMsg.length := by
      split
      · exact Nat.le_refl _
      · simp
    simp only [String.length_append]
    omega

/-! ### Claim theorems -/

/-- Claim C1: a candidate file whose (lowered, size-truncated) content
contains the query string as a contiguous substring is recorded in the
Exact bucket and in neither of the other two buckets, and any candidate
file adds at most one match record, because the three tiers are tested
in strict priority order with the first hit winning. -/
theorem exact_tier_priority_unique (cfg : SearchConfig) (q : SearchQuery) (f : FSFile)
    (s : ScanState) (sz : Nat) (raw : List Char)
    (hext : extOk cfg f = true) (hsz : f.size = some sz)
    (h1 : ¬ cfg.maxFileSize < sz) (h2 : sz ≠ 0) (hraw : f.content = some raw)
    (hexact : containsSub ((raw.take cfg.maxFileSize).map Char.toLower) q.queryLower
      = true) :
    ((processFile cfg q f s).exactMatches.length = s.exactMatches.length + 1 ∧
      (processFile cfg q f s).phraseMatches = s.phraseMatches ∧
      (processFile cfg q f s).keywordMatches = s.keywordMatches) ∧
    ∀ (g : FSFile) (t : ScanState),
      recordCount (processFile cfg q g t) ≤ recordCount t + 1 := by
  refine ⟨?_, fun g t => processFile_recordCount_le cfg q g t⟩
  unfold processFile
  rw [hext, hsz, hraw]
  simp only [Bool.not_true, Bool.false_eq_true, if_false, if_neg h1, if_neg h2]
  unfold classify
  rw [hexact]
  simp

/-- Witness for C1 at a concrete file and query. -/
theorem exact_tier_priority_unique_witness :
    ((processFile defaultConfig ⟨"fox".data, "fox".data, ["fox".data]⟩
        ⟨"d/a.txt".data, "a.txt".data, some 9, some "a fox ran".data⟩
        initState).exactMatches.length = initState.exactMatches.length + 1 ∧
      (processFile defaultConfig ⟨"fox".data, "fox".data, ["fox".data]⟩
        ⟨"d/a.txt".data, "a.txt".data, some 9, some "a fox ran".data⟩
        initState).phraseMatches = initState.phraseMatches ∧
      (processFile defaultConfig ⟨"fox".data, "fox".data, ["fox".data]⟩
        ⟨"d/a.txt".data, "a.txt".data, some 9, some "a fox ran".data⟩
        initState).keywordMatches = initState.keywordMatches) ∧
    ∀ (g : FSFile) (t : ScanState),
      recordCount (processFile defaultConfig ⟨"fox".data, "fox".data, ["fox".data]⟩ g t)
        ≤ recordCount t + 1 :=
  exact_tier_priority_unique defaultConfig ⟨"fox".data, "fox".data, ["fox".data]⟩
    ⟨"d/a.txt".data, "a.txt".data, some 9, some "a fox ran".data⟩
    initState 9 "a fox ran".data (by decide) rfl (by decide) (by decide) rfl (by decide)

/-- Claim C3: `files_searched` never exceeds `maxFilesToSearch`; once the cap
is reached the walk returns immediately; and in the spec's scenario
(cap 2, five eligible files) exactly two files are scanned and the walk's
result does not depend on the files after the first two. -/
theorem files_searched_capped (cfg : SearchConfig) (q : SearchQuery) :
    (∀ (dirs : List (List FSFile)) (s : ScanState),
      s.filesSearched ≤ cfg.maxFilesToSearch →
      (scanDirs cfg q dirs s).filesSearched ≤ cfg.maxFilesToSearch) ∧
    (∀ (dirs : List (List FSFile)) (s : ScanState),
      cfg.maxFilesToSearch ≤ s.filesSearched → scanDirs cfg q dirs s = s) ∧
    ((scanDirs exCfg exQ [exFilesFive] initState).filesSearched = 2 ∧
      ∀ (rest : List FSFile),
        scanDirs exCfg exQ [exFilesTwo ++ rest] initState
          = scanDirs exCfg exQ [exFilesTwo] initState) := by
  refine ⟨scanDirs_searched_le cfg q, scanDirs_halt cfg q, by decide, fun rest => ?_⟩
  have h2 : exCfg.maxFilesToSearch
      ≤ (scanDirFiles exCfg exQ exFilesTwo initState).filesSearched := by decide
  simp only [scanDirs]
  rw [scanDirFiles_append exCfg exQ exFilesTwo rest initState,
    scanDirFiles_halt exCfg exQ rest _ h2]

/-- Witness for C3: the cap invariant applied to the scenario directory. -/
theorem files_searched_capped_witness :
    (scanDirs exCfg exQ [exFilesFive] initState).filesSearched
      ≤ exCfg.maxFilesToSearch :=
  (files_searched_capped exCfg exQ).1 [exFilesFive] initState (by decide)

/-- Claim C4: when the lowered content contains the lowered query, the
classification is Exact with relevance `1000 + 100 * (number of
occurrences counted by str.count)`, and that count is a count of
non-overlapping occurrences: the counted occurrences jointly consume no
more characters than the content has. -/
theorem exact_score_formula (contentLower queryLower : List Char)
    (kws : List (List Char))
    (h : containsSub contentLower queryLower = true) :
    (classify contentLower queryLower kws
      = some (.exact, 1000 + countSub contentLower queryLower * 100)) ∧
    (queryLower ≠ [] →
      countSub contentLower queryLower * queryLower.length ≤ contentLower.length) := by
  refine ⟨?_, fun hne => countSub_nonoverlap contentLower queryLower hne⟩
  unfold classify
  rw [h]
  simp

/-- Witness for C4, the spec's scenario: one occurrence of
"quick brown fox" yields score 1000 + 100 * 1 = 1100. -/
theorem exact_score_formula_witness :
    classify "the quick brown fox jumps".data "quick brown fox".data
        ["quick".data, "brown".data, "fox".data]
      = some (.exact, 1000 + countSub "the quick brown fox jumps".data
          "quick brown fox".data * 100) ∧
    1000 + countSub "the quick brown fox jumps".data "quick brown fox".data * 100
      = 1100 ∧
    countSub "the quick brown fox jumps".data "quick brown fox".data
        * "quick brown fox".data.length
      ≤ "the quick brown fox jumps".data.length :=
  ⟨(exact_score_formula "the quick brown fox jumps".data "quick brown fox".data
      ["quick".data, "brown".data, "fox".data] (by decide)).1, by decide,
    (exact_score_formula "the quick brown fox jumps".data "quick brown fox".data
      ["quick".data, "brown".data, "fox".data] (by decide)).2 (by decide)⟩

/-- Counterexample to claim C2 as stated: the header embeds the query
verbatim and is not budget-checked, so a 50001-character query makes the
rendered report longer than `maxResponseChars = 50000` even with no
result entries at all. -/
theorem response_length_budget_counterexample :
    defaultConfig.maxTotalResponseLength = 50000 ∧
    50000 < (formatPrioritizedResults defaultConfig [] 0 0
        (List.replicate 50001 'a') [] [] []).length := by
  refine ⟨rfl, ?_⟩
  have h := query_length_le_format defaultConfig [] 0 0
    (List.replicate 50001 'a') [] [] []
  have h2 : (List.replicate 50001 'a').length = 50001 := List.length_replicate _ _
  omega

/-- Claim C2 (amended: the character-budget check does happen before each
result entry is committed, and on overflow the explicit truncation marker
is emitted instead of the entry; but the header, the truncation marker,
the remaining-matches note, the no-results block and the unreadable-files
footer are appended without a budget check, so the report is bounded by
`max(header length, maxResponseChars)` plus those fixed tails rather than
by `maxResponseChars` itself): the rendering loop's accumulated length —
header plus committed entries — never exceeds
`max(initial length, maxResponseChars)`; the whole rendered report is
bounded by that maximum plus the lengths of the truncation marker, the
no-results block and the remaining-matches note; and the `search_files`
response adds at most the unreadable-files footer on top of the rendered
report. -/
theorem response_length_budget :
    (∀ (cfg : SearchConfig) (results : List MatchRecord) (i len d : Nat),
      (renderLoop cfg results i len d).curLen ≤ max len cfg.maxTotalResponseLength ∧
      (renderLoop cfg results i len d).curLen
        = len + ((renderLoop cfg results i len d).entries.map String.length).sum) ∧
    (∀ (cfg : SearchConfig) (r : MatchRecord) (rest : List MatchRecord) (i len d : Nat),
      ¬ cfg.maxResultsDisplay ≤ d →
      cfg.maxTotalResponseLength < len + (renderEntry i r).length →
      renderLoop cfg (r :: rest) i len d = ⟨[], true, len, d⟩) ∧
    (∀ (cfg : SearchConfig) (results : List MatchRecord)
      (filesSearched filesSkipped : Nat) (query : List Char)
      (exacts phrases kwds : List MatchRecord),
      (formatPrioritizedResults cfg results filesSearched filesSkipped query
          exacts phrases kwds).length
        ≤ max (formatHeader filesSearched filesSkipped query results
              exacts phrases kwds).length cfg.maxTotalResponseLength
          + truncMsg.length + noResultsBlock.length
          + (remainingSummary results.length
              (renderLoop cfg results 1 (formatHeader filesSearched filesSkipped query
                results exacts phrases kwds).length 0).displayed exacts).length) ∧
    (∀ (cfg : SearchConfig) (dirs : List (List FSFile)) (query : List Char)
      (resp : String) (st : ScanState) (res : List MatchRecord),
      searchFiles cfg dirs query = .report resp st res →
      resp.length ≤ (formatPrioritizedResults cfg res st.filesSearched st.filesSkipped
          (pyStrip query) (sortRel st.exactMatches) (sortRel st.phraseMatches)
          (sortRel st.keywordMatches)).length + (errorFooter st.filesError).length) := by
  refine ⟨fun cfg results i len d => renderLoop_curLen cfg results i len d,
    fun cfg r rest i len d h1 h2 => by
      simp only [renderLoop]
      rw [if_neg h1, if_pos h2],
    fun cfg results fS fSk query e p k =>
      formatPrioritizedResults_length_le cfg results fS fSk query e p k, ?_⟩
  intro cfg dirs query resp st res h
  simp only [searchFiles] at h
  split at h
  · exact absurd h (by simp)
  · simp only [SearchOutcome.report.injEq] at h
    obtain ⟨hr, hst, hres⟩ := h
    subst hst hres
    rw [← hr]
    split
    · rw [String.length_append]
    · exact Nat.le_add_right _ _

set_option maxRecDepth 8192 in
/-- Witness for C2 (amended), third part, at a concrete search. -/
theorem response_length_budget_witness :
    (outcomeParts (searchFiles defaultConfig [] "fox".data)).1.length
      ≤ (formatPrioritizedResults defaultConfig
          (outcomeParts (searchFiles defaultConfig [] "fox".data)).2.2
          (outcomeParts (searchFiles defaultConfig [] "fox".data)).2.1.filesSearched
          (outcomeParts (searchFiles defaultConfig [] "fox".data)).2.1.filesSkipped
          (pyStrip "fox".data)
          (sortRel (outcomeParts
            (searchFiles defaultConfig [] "fox".data)).2.1.exactMatches)
          (sortRel (outcomeParts
            (searchFiles defaultConfig [] "fox".data)).2.1.phraseMatches)
          (sortRel (outcomeParts
            (searchFiles defaultConfig [] "fox".data)).2.1.keywordMatches)).length
        + (errorFooter (outcomeParts
            (searchFiles defaultConfig [] "fox".data)).2.1.filesError).length :=
  response_length_budget.2.2.2 defaultConfig [] "fox".data
    (outcomeParts (searchFiles defaultConfig [] "fox".data)).1
    (outcomeParts (searchFiles defaultConfig [] "fox".data)).2.1
    (outcomeParts (searchFiles defaultConfig [] "fox".data)).2.2
    (by decide)

/-- Counterexample to claim C9 as stated: for query "go radar" the simple
variant keeps only words longer than 2 characters, so it tokenizes to
["radar"] and reports the file "radar systems"; but the tiered variant's
AllKeywords containment criterion (all tokens longer than 1 character,
here ["go", "radar"]) fails on that content, so the simple variant's
matches are not a subset of the tiered variant's tier 3. -/
theorem safe_variant_counterexample :
    safeMatches "radar systems".data "go radar".data = true ∧
    allKeywordsCriterion "radar systems".data "go radar".data = false := by decide

/-- Claim C9 (amended: restricted to queries on which the two variants'
tokenizers agree, i.e. with no word of exactly 2 characters): the simple
variant's per-file match test coincides with — so in particular is
contained in — the tiered variant's AllKeywords containment criterion. -/
theorem safe_variant_allkeywords (q : List Char)
    (h : tokenizeSafe q = tokenize (pyStrip q)) :
    ∀ content : List Char, safeMatches content q = allKeywordsCriterion content q := by
  intro content
  unfold safeMatches allKeywordsCriterion
  rw [h]

/-- Witness for C9 (amended) at query "quick fox". -/
theorem safe_variant_allkeywords_witness :
    safeMatches "the quick brown fox".data "quick fox".data
      = allKeywordsCriterion "the quick brown fox".data "quick fox".data :=
  safe_variant_allkeywords "quick fox".data (by decide) "the quick brown fox".data

/-- Counterexample to claim C5 as stated: for the duplicated token list of
query "ab ab" and content "ab cd ab" (two tokens, not an Exact match) the
spec-side proximity condition holds — every token occurs and all
occurrences are within 50 words — yet `search_files` does not classify
the file ProximityPhrase (the distinct-found-token count 1 differs from
the token-list length 2, so `check_phrase_proximity` returns False and
the file falls to AllKeywords). -/
theorem phrase_tier_counterexample :
    2 ≤ (tokenize "ab ab".data).length ∧
    containsSub "ab cd ab".data "ab ab".data = false ∧
    proximitySpec "ab cd ab".data (tokenize "ab ab".data) ∧
    classify "ab cd ab".data "ab ab".data (tokenize "ab ab".data)
      ≠ some (.phrase,
        500 + ((tokenize "ab ab".data).map
          (fun kw => countSub "ab cd ab".data kw)).sum * 10) := by decide

/-- Claim C5 (amended: restricted to queries whose token list has no
duplicated token — with duplicates the tier is never assigned, see the
C10 analysis): for a query of at least two tokens whose content is not an
Exact match, the file is classified ProximityPhrase with score
`500 + 10 * Σ token occurrence counts` exactly when every token occurs at
some whitespace-word position of the content and some occurrence of the
first token has every other token within 50 word positions. -/
theorem phrase_tier_characterization (contentLower queryLower : List Char)
    (kws : List (List Char)) (hnd : kws.Nodup) (hlen : 2 ≤ kws.length)
    (hnex : containsSub contentLower queryLower = false) :
    (classify contentLower queryLower kws
      = some (.phrase,
          500 + (kws.map (fun kw => countSub contentLower kw)).sum * 10))
    ↔ proximitySpec contentLower kws := by
  rw [← checkPhraseProximity_iff contentLower kws hnd hlen]
  unfold classify
  rw [hnex]
  simp only [Bool.false_eq_true, if_false]
  have hd : decide (1 < kws.length) = true := by
    simp only [decide_eq_true_eq]
    omega
  rw [hd, Bool.true_and]
  by_cases hc : checkPhraseProximity contentLower kws = true
  · rw [hc]
    simp
  · rw [Bool.not_eq_true] at hc
    rw [hc]
    simp only [Bool.false_eq_true, if_false, iff_false]
    intro h
    split at h <;> simp_all

/-- Witness for C5 (amended) at query "quick fox" on "quick brown fox". -/
theorem phrase_tier_characterization_witness :
    classify "quick brown fox".data "quick fox".data ["quick".data, "fox".data]
      = some (.phrase,
          500 + (["quick".data, "fox".data].map
            (fun kw => countSub "quick brown fox".data kw)).sum * 10) :=
  (phrase_tier_characterization "quick brown fox".data "quick fox".data
    ["quick".data, "fox".data] (by decide) (by decide) (by decide)).mpr (by decide)

/-- Claim C6: every token is a lower-cased maximal word-character run of the
query of length at least 2, kept in order without deduplication (the
token list is exactly the filtered-and-lowered run list), and when no
token remains `search_files` returns the "meaningful search terms"
message without scanning any directory (the outcome is the same for
every directory tree). -/
theorem tokenizer_empty_query (q : List Char) :
    (tokenize q = ((runsBy isWordChar q).filter
        (fun w => 1 < w.length)).map (List.map Char.toLower)) ∧
    (∀ t ∈ tokenize q, ∃ w ∈ runsBy isWordChar q,
      1 < w.length ∧ t = w.map Char.toLower) ∧
    (∀ t ∈ tokenize q, 2 ≤ t.length) ∧
    (tokenize (pyStrip q) = [] →
      ∀ (cfg : SearchConfig) (dirs : List (List FSFile)),
        searchFiles cfg dirs q = .emptyQuery emptyQueryMsg) := by
  refine ⟨rfl, ?_, ?_, ?_⟩
  · intro t ht
    simp only [tokenize, List.mem_map, List.mem_filter] at ht
    obtain ⟨w, ⟨hw, hlen⟩, rfl⟩ := ht
    exact ⟨w, hw, by simpa using hlen, rfl⟩
  · intro t ht
    simp only [tokenize, List.mem_map, List.mem_filter] at ht
    obtain ⟨w, ⟨hw, hlen⟩, rfl⟩ := ht
    simp only [decide_eq_true_eq] at hlen
    simp only [List.length_map]
    omega
  · intro hemp cfg dirs
    simp [searchFiles, hemp]

/-- Witness for C6: a query of only 1-character words yields no tokens and the
EmptyQuery outcome on a non-empty directory tree. -/
theorem tokenizer_empty_query_witness :
    searchFiles defaultConfig exBadDirs "a ! b".data = .emptyQuery emptyQueryMsg :=
  (tokenizer_empty_query "a ! b".data).2.2.2 (by decide) defaultConfig exBadDirs

/-- Claim C8: each tier bucket is sorted in descending relevance by a stable
sort (a permutation that preserves the relative order of records with
equal relevance), and the combined result list of `search_files` is the
concatenation sorted-Exact ++ sorted-ProximityPhrase ++ sorted-AllKeywords. -/
theorem buckets_sorted_and_concatenated :
    (∀ l : List MatchRecord,
      (sortRel l).Pairwise (fun a b => b.relevance ≤ a.relevance) ∧
      (∀ v : Nat, (sortRel l).filter (fun r => r.relevance == v)
        = l.filter (fun r => r.relevance == v)) ∧
      (sortRel l).Perm l) ∧
    (∀ (cfg : SearchConfig) (dirs : List (List FSFile)) (query : List Char)
      (resp : String) (st : ScanState) (res : List MatchRecord),
      searchFiles cfg dirs query = .report resp st res →
      res = sortRel st.exactMatches ++ sortRel st.phraseMatches
        ++ sortRel st.keywordMatches) := by
  refine ⟨fun l => ⟨sortRel_pairwise l, fun v => sortRel_filter l v, sortRel_perm l⟩, ?_⟩
  intro cfg dirs query resp st res h
  simp only [searchFiles] at h
  split at h
  · exact absurd h (by simp)
  · simp only [SearchOutcome.report.injEq] at h
    obtain ⟨hr, hst, hres⟩ := h
    subst hst hres
    rfl

set_option maxRecDepth 8192 in
/-- Witness for C8 at a concrete two-directory scan. -/
theorem buckets_sorted_and_concatenated_witness :
    (outcomeParts (searchFiles defaultConfig exBadDirs "radar".data)).2.2
      = sortRel (outcomeParts
          (searchFiles defaultConfig exBadDirs "radar".data)).2.1.exactMatches
        ++ sortRel (outcomeParts
          (searchFiles defaultConfig exBadDirs "radar".data)).2.1.phraseMatches
        ++ sortRel (outcomeParts
          (searchFiles defaultConfig exBadDirs "radar".data)).2.1.keywordMatches :=
  buckets_sorted_and_concatenated.2 defaultConfig exBadDirs "radar".data
    (outcomeParts (searchFiles defaultConfig exBadDirs "radar".data)).1
    (outcomeParts (searchFiles defaultConfig exBadDirs "radar".data)).2.1
    (outcomeParts (searchFiles defaultConfig exBadDirs "radar".data)).2.2
    (by decide)

/-- Claim C7: a failure while sizing or reading a file only increments the
error counter for that file, adds no match record, lets the scan of the
remaining files continue, and when the final error counter is nonzero the
report gets the unreadable-files footer. -/
theorem unreadable_file_isolated (cfg : SearchConfig) (q : SearchQuery) :
    (∀ (f : FSFile) (s : ScanState), extOk cfg f = true → f.size = none →
      processFile cfg q f s = { s with filesError := s.filesError + 1 }) ∧
    (∀ (f : FSFile) (s : ScanState) (sz : Nat), extOk cfg f = true →
      f.size = some sz → ¬ cfg.maxFileSize < sz → sz ≠ 0 → f.content = none →
      processFile cfg q f s
        = { s with
            filesSearched := s.filesSearched + 1
            filesError := s.filesError + 1 }) ∧
    (∀ (f : FSFile) (rest : List FSFile) (s : ScanState),
      ¬ cfg.maxFilesToSearch ≤ s.filesSearched →
      scanDirFiles cfg q (f :: rest) s
        = scanDirFiles cfg q rest (processFile cfg q f s)) ∧
    (∀ (dirs : List (List FSFile)) (query : List Char) (resp : String)
      (st : ScanState) (res : List MatchRecord),
      searchFiles cfg dirs query = .report resp st res → 0 < st.filesError →
      resp = formatPrioritizedResults cfg res st.filesSearched st.filesSkipped
          (pyStrip query) (sortRel st.exactMatches) (sortRel st.phraseMatches)
          (sortRel st.keywordMatches) ++ errorFooter st.filesError) := by
  refine ⟨?_, ?_, fun f rest s h => scanDirFiles_cons_of_lt cfg q f rest s h, ?_⟩
  · intro f s hext hsz
    unfold processFile
    rw [hext, hsz]
    simp
  · intro f s sz hext hsz h1 h2 hc
    unfold processFile
    rw [hext, hsz, hc]
    simp only [Bool.not_true, Bool.false_eq_true, if_false, if_neg h1, if_neg h2]
  · intro dirs query resp st res h hpos
    simp only [searchFiles] at h
    split at h
    · exact absurd h (by simp)
    · simp only [SearchOutcome.report.injEq] at h
      obtain ⟨hr, hst, hres⟩ := h
      subst hst hres
      rw [if_pos hpos] at hr
      exact hr.symm

set_option maxRecDepth 8192 in
/-- Witness for C7: a scan whose second file is unreadable still reports the
first file's match and appends the one-file footer. -/
theorem unreadable_file_isolated_witness :
    (outcomeParts (searchFiles defaultConfig exBadDirs "radar".data)).1
      = formatPrioritizedResults defaultConfig
          (outcomeParts (searchFiles defaultConfig exBadDirs "radar".data)).2.2
          (outcomeParts (searchFiles defaultConfig exBadDirs "radar".data)).2.1.filesSearched
          (outcomeParts (searchFiles defaultConfig exBadDirs "radar".data)).2.1.filesSkipped
          (pyStrip "radar".data)
          (sortRel (outcomeParts
            (searchFiles defaultConfig exBadDirs "radar".data)).2.1.exactMatches)
          (sortRel (outcomeParts
            (searchFiles defaultConfig exBadDirs "radar".data)).2.1.phraseMatches)
          (sortRel (outcomeParts
            (searchFiles defaultConfig exBadDirs "radar".data)).2.1.keywordMatches)
        ++ errorFooter (outcomeParts
            (searchFiles defaultConfig exBadDirs "radar".data)).2.1.filesError :=
  (unreadable_file_isolated defaultConfig exQ).2.2.2 exBadDirs "radar".data
    (outcomeParts (searchFiles defaultConfig exBadDirs "radar".data)).1
    (outcomeParts (searchFiles defaultConfig exBadDirs "radar".data)).2.1
    (outcomeParts (searchFiles defaultConfig exBadDirs "radar".data)).2.2
    (by decide) (by decide)

/-- Claim C10: a token list with a repeated token can never satisfy
`check_phrase_proximity`, because the number of distinct tokens found
can never equal the length of a duplicates-preserving list with repeats;
hence such a query never yields a ProximityPhrase classification. -/
theorem duplicate_tokens_never_phrase (content : List Char)
    (kws : List (List Char)) (h : ¬ kws.Nodup) :
    checkPhraseProximity content kws = false ∧
    ∀ (queryLower : List Char) (sc : Nat),
      classify content queryLower kws ≠ some (.phrase, sc) := by
  have hfound : ∀ p : List Char → Bool, (kws.dedup.filter p).length ≠ kws.length := by
    intro p heq
    have h1 : (kws.dedup.filter p).length ≤ kws.dedup.length :=
      List.length_filter_le p kws.dedup
    have h2 : kws.dedup.length ≤ kws.length :=
      List.Sublist.length_le (List.dedup_sublist kws)
    have h3 : kws.dedup.length = kws.length := by omega
    have h4 : kws.dedup = kws :=
      List.Sublist.eq_of_length (List.dedup_sublist kws) h3
    exact h (h4 ▸ List.nodup_dedup kws)
  have hfalse : checkPhraseProximity content kws = false := by
    unfold checkPhraseProximity
    split
    · rfl
    · rw [if_pos (hfound _)]
  refine ⟨hfalse, fun queryLower sc => ?_⟩
  unfold classify
  split
  · simp
  · rw [hfalse]
    simp only [Bool.and_false, Bool.false_eq_true, if_false]
    split <;> simp

/-- Witness for C10 with the duplicate token list ["ab", "ab"]. -/
theorem duplicate_tokens_never_phrase_witness :
    checkPhraseProximity "ab cd ab".data ["ab".data, "ab".data] = false ∧
    ∀ (queryLower : List Char) (sc : Nat),
      classify "ab cd ab".data queryLower ["ab".data, "ab".data]
        ≠ some (.phrase, sc) :=
  duplicate_tokens_never_phrase "ab cd ab".data ["ab".data, "ab".data] (by decide)
